import Mathlib

/-!
Verification development for the retrieval-augmented completion streaming
pipeline of this repository, centered on the edge handler in
`src/pages/api/openai/completions/[project].ts`.  The TypeScript handler and
its stream transformer are shallowly embedded as executable Lean functions;
external collaborators (rate limiter, moderation, embedding, retrieval, the
upstream completion stream) are supplied as oracle values in an `Env` record,
exactly as the handler consumes them.
-/

/-- One server-sent event as seen by the `onParse` callback of the stream
transformer, abstracted to the three cases the code distinguishes: the literal
`[DONE]` data string; a data string whose `JSON.parse` succeeds and whose
model-specific chunk field (`choices[0].delta.content` or `choices[0].text`)
is `text`; and a data string on which `JSON.parse` throws. -/
inductive EventData where
  | done
  | chunk (text : String)
  | malformed
deriving DecidableEq

/-- Whether an event is the `[DONE]` termination sentinel. -/
def EventData.isDone : EventData → Bool
  | .done => true
  | _ => false

/-- A frame enqueued on the output `ReadableStream`: either the one-time
references header (`JSON.stringify(references) + STREAM_SEPARATOR`) or a
content chunk (`encoder.encode(text)`). -/
inductive OutFrame where
  | header (payload : String)
  | content (text : String)
deriving DecidableEq

/-- Whether a frame is the references header. -/
def isHeaderFrame : OutFrame → Bool
  | .header _ => true
  | .content _ => false

/-- The content texts of a frame list, in order, headers dropped. -/
def contentsOf : List OutFrame → List String
  | [] => []
  | .header _ :: rest => contentsOf rest
  | .content text :: rest => text :: contentsOf rest

/-- JSON escaping of a single character, as `JSON.stringify` performs on the
characters of a string (quote, backslash and control characters). -/
def jsonEscapeChar (c : Char) : String :=
  if c = '"' then "\\\""
  else if c = '\\' then "\\\\"
  else if c = '\n' then "\\n"
  else if c = '\r' then "\\r"
  else if c = '\t' then "\\t"
  else String.singleton c

/-- JSON escaping of a string body. -/
def jsonEscape (s : String) : String :=
  String.join (s.toList.map jsonEscapeChar)

/-- Comma-separated concatenation, as in a JSON array body. -/
def joinWithCommas : List String → String
  | [] => ""
  | [x] => x
  | x :: y :: rest => x ++ "," ++ joinWithCommas (y :: rest)

/-- `JSON.stringify` of a list of strings. -/
def jsonStringifyList (xs : List String) : String :=
  "[" ++ joinWithCommas (xs.map (fun x => "\"" ++ jsonEscape x ++ "\"")) ++ "]"

/-- The byte payload of the references frame:
`JSON.stringify(references) + STREAM_SEPARATOR` (line 281 of the handler;
`references || []` never differs from `references`, which is always an
array). -/
def headerPayload (refs : List String) (sep : String) : String :=
  jsonStringifyList refs ++ sep

/-- Whether the chunk text contains a newline character.  This models the
truthiness of `(text?.match(/\n/) || []).length` at line 289: the non-global
regex `/\n/` yields a non-empty match array exactly when `text` contains at
least one newline character anywhere. -/
def hasNewline (text : String) : Bool :=
  text.toList.contains '\n'

/-- The mutable state captured by the `start` closure of the output
`ReadableStream`: the forwarded-chunk counter, the `didSendHeader` flag, the
errored-stream flag (set by `controller.error`), the list of frames enqueued
so far, and the running transcript `allText`.  `allText` is initialized to
the full prompt in the source and is used only for post-hoc token accounting;
its initial value affects no enqueued frame and no claim. -/
structure TState where
  counter : Nat
  didSendHeader : Bool
  errored : Bool
  out : List OutFrame
  allText : String
deriving DecidableEq

/-- The initial transformer state. -/
def initTState : TState := ⟨0, false, false, [], ""⟩

/-- Lines 278-285: if the header has not been sent, enqueue
`JSON.stringify(references) + STREAM_SEPARATOR` and set `didSendHeader`. -/
def sendHeaderIfNeeded (refs : List String) (sep : String) (s : TState) : TState :=
  if s.didSendHeader then s
  else { s with out := s.out ++ [OutFrame.header (headerPayload refs sep)],
                didSendHeader := true }

/-- The `onParse` event callback (lines 270-300).  `[DONE]` returns without
touching any state.  Otherwise the header is sent if needed, the chunk text is
appended to the transcript, and the text is forwarded unless fewer than two
chunks have been counted and the text contains a newline (in which case the
counter is not incremented).  A `JSON.parse` failure reaches the `catch` and
errors the stream; once the stream is errored no further frame can be
enqueued. -/
def onParse (refs : List String) (sep : String) (s : TState) : EventData → TState
  | .done => s
  | .chunk text =>
    if s.errored then s
    else
      let s1 := sendHeaderIfNeeded refs sep s
      let s2 := { s1 with allText := s1.allText ++ text }
      if s2.counter < 2 && hasNewline text then s2
      else { s2 with out := s2.out ++ [OutFrame.content text], counter := s2.counter + 1 }
  | .malformed =>
    if s.errored then s
    else
      let s1 := sendHeaderIfNeeded refs sep s
      { s1 with errored := true }

/-- Feeding a whole upstream event sequence through `onParse`, starting from
the initial state (the `for await` loop over `res.body`, lines 304-306).  The
stream is closed (`controller.close()`) when the loop ends, whatever the final
state. -/
def runTransformer (refs : List String) (sep : String) (events : List EventData) : TState :=
  events.foldl (onParse refs sep) initTState

/-- The artifact filter stated in the spec's own terms, amended to the code's
condition: among the first two counted chunks, a chunk containing at least one
newline character is dropped and not counted; every other chunk is kept and
counted; after two chunks are counted everything is kept. -/
def artifactFilter : Nat → List String → List String
  | _, [] => []
  | counter, text :: rest =>
    if counter < 2 && hasNewline text then artifactFilter counter rest
    else text :: artifactFilter (counter + 1) rest

/-- Truncation of the raw prompt: `params.prompt.substring(0, MAX_PROMPT_LENGTH)`
(line 83), written structurally over the character list. -/
def truncateTo (n : Nat) (s : String) : String :=
  String.mk (s.toList.take n)

/-- `String.prototype.trim`: drop leading and trailing whitespace, written
structurally over the character list. -/
def trimString (s : String) : String :=
  String.mk (((s.toList.dropWhile Char.isWhitespace).reverse.dropWhile Char.isWhitespace).reverse)

/-- `replaceAll('\n', ' ')`: since the pattern is a single character this is a
character-wise map. -/
def replaceNewlines (s : String) : String :=
  String.mk (s.toList.map (fun c => if c = '\n' then ' ' else c))

/-- `const sanitizedQuery = prompt.trim().replaceAll('\n', ' ')` (line 124). -/
def sanitize (prompt : String) : String :=
  replaceNewlines (trimString prompt)

/-- `pathname.split('/').slice(-1)[0]` (lines 88 and 96): the suffix of the
pathname after its last `'/'`, or the whole pathname when it has none. -/
def lastPathComponent (pathname : String) : String :=
  String.mk ((pathname.toList.reverse.takeWhile (fun c => c ≠ '/')).reverse)

/-- A retrieved file section as returned by the `match_file_sections` RPC
(lines 170-175).  The similarity score is a float in the source; it is never
inspected by the handler, so a rational stands in for it. -/
structure FileSection where
  path : String
  content : String
  token_count : Nat
  similarity : ℚ
deriving DecidableEq

/-- The fixed context token budget (line 24 of the source). -/
def CONTEXT_TOKENS_CUTOFF : Nat := 800

/-- One included section's contribution to the context text:
the template literal is backtick-content.trim()-newline-dashes-newline. -/
def sectionText (s : FileSection) : String :=
  trimString s.content ++ "\n---\n"

/-- The context-budgeting loop (lines 212-226): add the section's token count
to the running total; if the total has reached or exceeded the cutoff, break
before appending; otherwise append the trimmed content plus separator and
record the path if unseen. -/
def budgetLoop : Nat → String → List String → List FileSection → String × List String
  | _, contextText, references, [] => (contextText, references)
  | numTokens, contextText, references, sec :: rest =>
    let numTokens := numTokens + sec.token_count
    if CONTEXT_TOKENS_CUTOFF ≤ numTokens then (contextText, references)
    else
      let contextText := contextText ++ sectionText sec
      let references := if references.contains sec.path then references
                        else references ++ [sec.path]
      budgetLoop numTokens contextText references rest

/-- The complete budgeting pass over the ranked sections, from zero tokens,
empty context and empty reference list. -/
def budget (fileSections : List FileSection) : String × List String :=
  budgetLoop 0 "" [] fileSections

/-- The maximal prefix of the ranked sections whose running token total stays
strictly below the cutoff after each addition, stated in the spec's own words
for comparison with `budgetLoop`. -/
def includedSections : Nat → List FileSection → List FileSection
  | _, [] => []
  | acc, sec :: rest =>
    if acc + sec.token_count < CONTEXT_TOKENS_CUTOFF then
      sec :: includedSections (acc + sec.token_count) rest
    else []

/-- The result record of `checkCompletionsRateLimits`: the handler reads only
`result.success`; `limit` and `remaining` exist on the record (the training
endpoint surfaces them) but the completions handler never reads them. -/
structure RateLimitResult where
  success : Bool
  limit : Int
  remaining : Int
deriving DecidableEq

/-- One entry of `CreateEmbeddingResponse.data`; the vector is a float array
in the source, modelled by rationals (no claim computes with its values). -/
structure EmbeddingItem where
  embedding : List ℚ
deriving DecidableEq

/-- The embedding response: `embeddingResult?.data?.[0]?.embedding` is read. -/
structure CreateEmbeddingResponse where
  data : List EmbeddingItem
deriving DecidableEq

/-- The options object passed to `backOff` (lines 138-141). -/
structure BackOffOptions where
  startingDelay : Nat
  numOfAttempts : Nat
deriving DecidableEq

/-- The literal options at the embedding call site:
`{ startingDelay: 10000, numOfAttempts: 10 }`. -/
def completionsBackoffOptions : BackOffOptions := ⟨10000, 10⟩

/-- Whether an `Except` value is a success. -/
def exceptIsOk {α : Type} : Except String α → Bool
  | .ok _ => true
  | .error _ => false

/-- Modelled from the spec: the retry loop of the `exponential-backoff`
library (`backOff`), whose source is not part of this repository.  The
operation is attempted; on failure, while attempts remain (second argument is
the remaining-retry fuel), the next attempt runs; when the last attempt fails
its error is rethrown.  The delay between attempts does not affect the value
semantics.  Returns the result together with the number of attempts made;
the attempt index is passed to the operation oracle. -/
def backOffGo {α : Type} (op : Nat → Except String α) : Nat → Nat → Except String α × Nat
  | 0, i => (op i, i + 1)
  | fuel + 1, i =>
    match op i with
    | .ok a => (.ok a, i + 1)
    | .error _ => backOffGo op fuel (i + 1)

/-- Modelled from the spec: running `backOff` with the given options makes up
to `numOfAttempts` attempts in total. -/
def backOffRun {α : Type} (opts : BackOffOptions) (op : Nat → Except String α) :
    Except String α × Nat :=
  backOffGo op (opts.numOfAttempts - 1) 0

/-- Modelled from the spec: the successive delays of bounded exponential
backoff with doubling, starting at `startingDelay`, one delay between each
pair of consecutive attempts. -/
def backOffDelays (opts : BackOffOptions) : List Nat :=
  (List.range (opts.numOfAttempts - 1)).map (fun i => opts.startingDelay * 2 ^ i)

/-- The argument object of the `match_file_sections` RPC (lines 177-183).
`match_threshold` is the float literal `0.78` in the source, modelled as the
rational 78/100. -/
structure RpcArgs where
  project_id : String
  embedding : List ℚ
  match_threshold : ℚ
  match_count : Nat
  min_content_length : Nat
deriving DecidableEq

/-- The distinct exit points of the handler, one constructor per `return new
Response(...)` site (or, for `thrownFlagged`, the uncaught
`throw new Error('Flagged content')` at line 129, which is not a `Response`
at all). -/
inductive HandlerOutcome where
  | ok200
  | methodNotAllowed (method : String)
  | noProject
  | noPrompt
  | rateLimited
  | thrownFlagged
  | embeddingError (prompt : String) (err : String)
  | noEmbedding (prompt : String)
  | loadError (message : String)
  | noSections
  | stream (frames : List OutFrame)
deriving DecidableEq

/-- The HTTP status of each exit, as written at the corresponding `Response`
constructor; `thrownFlagged` has none (the error escapes the handler
uncaught), and the streaming response uses the default status 200. -/
def statusOf : HandlerOutcome → Option Nat
  | .ok200 => some 200
  | .methodNotAllowed _ => some 405
  | .noProject => some 400
  | .noPrompt => some 400
  | .rateLimited => some 429
  | .thrownFlagged => none
  | .embeddingError _ _ => some 400
  | .noEmbedding _ => some 400
  | .loadError _ => some 400
  | .noSections => some 400
  | .stream _ => some 200

/-- The plain-text body of each exit, as written in the source; `none` for the
uncaught throw and for the streaming response (whose body is the stream). -/
def bodyOf : HandlerOutcome → Option String
  | .ok200 => some "ok"
  | .methodNotAllowed m => some ("Method " ++ m ++ " Not Allowed")
  | .noProject => some "No project found"
  | .noPrompt => some "No prompt provided"
  | .rateLimited => some "Too many requests"
  | .thrownFlagged => none
  | .embeddingError prompt err =>
      some ("Error creating embedding for prompt '" ++ prompt ++ "': " ++ err)
  | .noEmbedding prompt =>
      some ("Error creating embedding for prompt '" ++ prompt ++ "'")
  | .loadError message => some ("Error loading embeddings: " ++ message)
  | .noSections => some "No relevant sections found"
  | .stream _ => none

/-- The observable trace of one request: the outcome, how many times each
external collaborator was invoked, the input handed to moderation, the
argument object of the retrieval RPC if issued, and the response headers
explicitly set (the handler sets none anywhere). -/
structure Trace where
  outcome : HandlerOutcome
  moderationCalls : Nat := 0
  moderationInput : Option String := none
  embeddingCalls : Nat := 0
  retrievalCalls : Nat := 0
  completionCalls : Nat := 0
  rpcArgs : Option RpcArgs := none
  responseHeaders : List (String × String) := []
deriving DecidableEq

/-- The external collaborators and configuration the handler consumes, fixed
for one request.  `maxPromptLength` and `streamSeparator` model the
`MAX_PROMPT_LENGTH` and `STREAM_SEPARATOR` constants imported from
`@/lib/constants`, a file not present in this source tree; per the spec they
are a fixed maximum prompt length and a fixed separator token, so they are
carried as parameters.  `moderationFlagged` is the truthiness of
`moderationResponse?.results?.[0]?.flagged` for a given input;
`embeddingAttempt` gives the outcome of the n-th `createEmbedding` attempt;
`matchFileSections` is the `{ error, data }` pair of the retrieval RPC
(`error` non-null becomes `.error`, otherwise `.ok` with the nullable list);
`upstreamEvents` is the parsed event sequence of the completion stream. -/
structure Env where
  maxPromptLength : Nat
  streamSeparator : String
  rateLimit : RateLimitResult
  moderationFlagged : String → Bool
  embeddingAttempt : Nat → Except String CreateEmbeddingResponse
  matchFileSections : Except String (Option (List FileSection))
  upstreamEvents : List EventData

/-- The request-derived inputs the handler reads.  The `model` and
`iDontKnowMessage` body fields shape only the upstream payload and the prompt
template, which no claim observes, so they are not carried. -/
structure Req where
  method : String
  promptParam : String
  pathname : String
  searchProject : Option String
deriving DecidableEq

/-- Project-id resolution (lines 88-97): if the last path component is
`completions`, use the `project` query parameter, else use the last path
component itself. -/
def resolvedProject (req : Req) : Option String :=
  if lastPathComponent req.pathname = "completions" then req.searchProject
  else some (lastPathComponent req.pathname)

/-- JavaScript falsiness of the resolved project parameter: `null` from
`searchParams.get` or the empty string are both falsy at line 99. -/
def isFalsyStr : Option String → Bool
  | none => true
  | some s => s == ""

/-- The completions handler (lines 71-326), embedded as a pure function of
the request and the collaborator oracles, returning the observable trace.
Branches appear in source order: OPTIONS preflight, method check, prompt
truncation, project resolution, missing-project and missing-prompt checks,
rate limiting, sanitization, moderation (whose flagged branch throws),
embedding under `backOff`, the `data[0].embedding` presence check, the
retrieval RPC with its fixed policy constants, the empty/null-sections check,
budgeting, and the streaming response driven by the transformer.  The
`getOpenAIKey` lookup (line 122) and the prompt template (lines 228-241) have
no effect observable by any claim and are elided; the context text
`(budget ...).1` feeds only that template. -/
def handler (env : Env) (req : Req) : Trace :=
  if req.method = "OPTIONS" then { outcome := .ok200 }
  else if req.method ≠ "POST" then { outcome := .methodNotAllowed req.method }
  else
    let prompt := truncateTo env.maxPromptLength req.promptParam
    let projectIdParam := resolvedProject req
    if isFalsyStr projectIdParam then { outcome := .noProject }
    else if prompt = "" then { outcome := .noPrompt }
    else
      let projectId := projectIdParam.getD ""
      if !env.rateLimit.success then { outcome := .rateLimited }
      else
        let sanitizedQuery := sanitize prompt
        if env.moderationFlagged sanitizedQuery then
          { outcome := .thrownFlagged, moderationCalls := 1,
            moderationInput := some sanitizedQuery }
        else
          match backOffRun completionsBackoffOptions env.embeddingAttempt with
          | (.error err, attempts) =>
            { outcome := .embeddingError prompt err, moderationCalls := 1,
              moderationInput := some sanitizedQuery, embeddingCalls := attempts }
          | (.ok embeddingResult, attempts) =>
            match embeddingResult.data.head? with
            | none =>
              { outcome := .noEmbedding prompt, moderationCalls := 1,
                moderationInput := some sanitizedQuery, embeddingCalls := attempts }
            | some item =>
              let args : RpcArgs :=
                { project_id := projectId, embedding := item.embedding,
                  match_threshold := 78/100, match_count := 10,
                  min_content_length := 50 }
              match env.matchFileSections with
              | .error message =>
                { outcome := .loadError message, moderationCalls := 1,
                  moderationInput := some sanitizedQuery, embeddingCalls := attempts,
                  retrievalCalls := 1, rpcArgs := some args }
              | .ok none =>
                { outcome := .noSections, moderationCalls := 1,
                  moderationInput := some sanitizedQuery, embeddingCalls := attempts,
                  retrievalCalls := 1, rpcArgs := some args }
              | .ok (some fileSections) =>
                if fileSections.isEmpty then
                  { outcome := .noSections, moderationCalls := 1,
                    moderationInput := some sanitizedQuery, embeddingCalls := attempts,
                    retrievalCalls := 1, rpcArgs := some args }
                else
                  let references := (budget fileSections).2
                  let frames :=
                    (runTransformer references env.streamSeparator env.upstreamEvents).out
                  { outcome := .stream frames, moderationCalls := 1,
                    moderationInput := some sanitizedQuery, embeddingCalls := attempts,
                    retrievalCalls := 1, rpcArgs := some args, completionCalls := 1 }

/-- Concatenation of a list of strings, in order. -/
def concatAll : List String → String
  | [] => ""
  | x :: rest => x ++ concatAll rest

/-- The header-emission invariant of the transformer state: either the header
has not been sent and nothing has been enqueued, or it has been sent, it is
the first enqueued frame, and no later frame is a header. -/
def headerInv (refs : List String) (sep : String) (s : TState) : Prop :=
  (s.didSendHeader = false ∧ s.out = []) ∨
  (s.didSendHeader = true ∧ ∃ rest, s.out = OutFrame.header (headerPayload refs sep) :: rest
      ∧ rest.countP isHeaderFrame = 0)

/-- A concrete well-formed request fixture: `POST` to the per-project route. -/
def reqStd : Req :=
  { method := "POST", promptParam := "What is the refund policy?",
    pathname := "/api/openai/completions/proj-1", searchProject := none }

/-- A concrete environment fixture in which every collaborator succeeds: the
limiter admits the request, moderation does not flag, the first embedding
attempt succeeds, retrieval returns one small section, and the upstream
stream emits three content chunks then the sentinel. -/
def envBase : Env :=
  { maxPromptLength := 280,
    streamSeparator := "___START_RESPONSE_STREAM___",
    rateLimit := ⟨true, 10, 9⟩,
    moderationFlagged := fun _ => false,
    embeddingAttempt := fun _ => Except.ok ⟨[⟨[1, 2]⟩]⟩,
    matchFileSections :=
      Except.ok (some [⟨"docs/refund.md", "Refunds within 30 days.", 10, 0⟩]),
    upstreamEvents :=
      [EventData.chunk "Ref", EventData.chunk "unds", EventData.chunk " apply.",
       EventData.done] }

/-- `envBase` with the rate limiter rejecting the request. -/
def envRL : Env := { envBase with rateLimit := ⟨false, 10, 0⟩ }

/-- `envBase` with moderation flagging every input. -/
def envFlag : Env := { envBase with moderationFlagged := fun _ => true }

/-- `envBase` with every embedding attempt failing. -/
def envFail : Env :=
  { envBase with embeddingAttempt := fun _ => Except.error "too_many_requests" }

/-- `envBase` with retrieval returning the empty section list. -/
def envEmpty : Env := { envBase with matchFileSections := Except.ok (some []) }

/-- `reqStd` with an empty prompt. -/
def reqEmptyPrompt : Req := { reqStd with promptParam := "" }

/-- `reqStd` with a whitespace-only prompt. -/
def reqWhitespacePrompt : Req := { reqStd with promptParam := "  \n " }

/-- The `[DONE]` sentinel leaves the transformer state untouched. -/
theorem onParse_done (refs : List String) (sep : String) (s : TState) :
    onParse refs sep s EventData.done = s := rfl

/-- After `sendHeaderIfNeeded` the header flag is set. -/
theorem sendHeader_dsh (refs : List String) (sep : String) (s : TState) :
    (sendHeaderIfNeeded refs sep s).didSendHeader = true := by
  unfold sendHeaderIfNeeded
  split
  case isTrue h => exact h
  case isFalse h => rfl

/-- `contentsOf` distributes over list append. -/
theorem contentsOf_append (a b : List OutFrame) :
    contentsOf (a ++ b) = contentsOf a ++ contentsOf b := by
  induction a with
  | nil => rfl
  | cons f rest ih => cases f <;> simp [contentsOf, ih]

/-- `onParse` preserves the header-emission invariant. -/
theorem onParse_inv (refs : List String) (sep : String) (s : TState) (e : EventData)
    (h : headerInv refs sep s) : headerInv refs sep (onParse refs sep s e) := by
  cases e with
  | done => exact h
  | chunk text =>
    simp only [onParse]
    split
    case isTrue => exact h
    case isFalse herr =>
      by_cases hdsh : s.didSendHeader = true
      · rcases h with ⟨hd, _⟩ | ⟨_, rest, ho, hc⟩
        · rw [hdsh] at hd; cases hd
        · dsimp only
          split
          · right
            exact ⟨by simp [sendHeaderIfNeeded, hdsh], rest,
                   by simp [sendHeaderIfNeeded, hdsh, ho], hc⟩
          · right
            refine ⟨by simp [sendHeaderIfNeeded, hdsh], rest ++ [OutFrame.content text], ?_, ?_⟩
            · simp [sendHeaderIfNeeded, hdsh, ho]
            · simp [List.countP_append, hc, isHeaderFrame]
      · rcases h with ⟨hd, ho⟩ | ⟨hd, _⟩
        · dsimp only
          split
          · right
            exact ⟨by simp [sendHeaderIfNeeded, hdsh], [],
                   by simp [sendHeaderIfNeeded, hdsh, ho], rfl⟩
          · right
            refine ⟨by simp [sendHeaderIfNeeded, hdsh], [OutFrame.content text], ?_, ?_⟩
            · simp [sendHeaderIfNeeded, hdsh, ho]
            · simp [isHeaderFrame]
        · exact absurd hd hdsh
  | malformed =>
    simp only [onParse]
    split
    case isTrue => exact h
    case isFalse herr =>
      by_cases hdsh : s.didSendHeader = true
      · rcases h with ⟨hd, _⟩ | ⟨_, rest, ho, hc⟩
        · rw [hdsh] at hd; cases hd
        · right
          exact ⟨by simp [sendHeaderIfNeeded, hdsh], rest,
                 by simp [sendHeaderIfNeeded, hdsh, ho], hc⟩
      · rcases h with ⟨hd, ho⟩ | ⟨hd, _⟩
        · right
          exact ⟨by simp [sendHeaderIfNeeded, hdsh], [],
                 by simp [sendHeaderIfNeeded, hdsh, ho], rfl⟩
        · exact absurd hd hdsh

/-- Folding any event list preserves the header-emission invariant. -/
theorem foldl_inv (refs : List String) (sep : String) :
    ∀ (events : List EventData) (s : TState),
      headerInv refs sep s → headerInv refs sep (events.foldl (onParse refs sep) s) := by
  intro events
  induction events with
  | nil => exact fun s h => h
  | cons e rest ih => exact fun s h => ih _ (onParse_inv refs sep s e h)

/-- Once set, the header flag stays set across one event. -/
theorem onParse_dsh_mono (refs : List String) (sep : String) (s : TState) (e : EventData)
    (h : s.didSendHeader = true) : (onParse refs sep s e).didSendHeader = true := by
  cases e with
  | done => exact h
  | chunk text =>
    simp only [onParse]
    split
    · exact h
    · dsimp only
      split
      · exact sendHeader_dsh refs sep s
      · exact sendHeader_dsh refs sep s
  | malformed =>
    simp only [onParse]
    split
    · exact h
    · exact sendHeader_dsh refs sep s

/-- Once set, the header flag stays set across any event list. -/
theorem foldl_dsh_mono (refs : List String) (sep : String) :
    ∀ (events : List EventData) (s : TState), s.didSendHeader = true →
      (events.foldl (onParse refs sep) s).didSendHeader = true := by
  intro events
  induction events with
  | nil => exact fun s h => h
  | cons e rest ih => exact fun s h => ih _ (onParse_dsh_mono refs sep s e h)

/-- A non-sentinel event processed in a live state sets the header flag. -/
theorem onParse_dsh_set (refs : List String) (sep : String) (s : TState) (e : EventData)
    (herr : s.errored = false) (he : e.isDone = false) :
    (onParse refs sep s e).didSendHeader = true := by
  cases e with
  | done => simp [EventData.isDone] at he
  | chunk text =>
    simp only [onParse, herr, Bool.false_eq_true, if_false]
    dsimp only
    split
    · exact sendHeader_dsh refs sep s
    · exact sendHeader_dsh refs sep s
  | malformed =>
    simp only [onParse, herr, Bool.false_eq_true, if_false]
    exact sendHeader_dsh refs sep s

/-- A sentinel-only event list leaves any state untouched. -/
theorem foldl_allDone (refs : List String) (sep : String) :
    ∀ (events : List EventData) (s : TState),
      (∀ e ∈ events, e = EventData.done) → events.foldl (onParse refs sep) s = s := by
  intro events
  induction events with
  | nil => intro s _; rfl
  | cons e rest ih =>
    intro s h
    have he : e = EventData.done := h e (by simp)
    rw [List.foldl_cons, he, onParse_done]
    exact ih s (fun f hf => h f (by simp [hf]))

/-- If some event is not the sentinel, the header flag ends up set. -/
theorem foldl_dsh_any (refs : List String) (sep : String) :
    ∀ (events : List EventData) (s : TState), s.errored = false →
      (∃ e ∈ events, e.isDone = false) →
      (events.foldl (onParse refs sep) s).didSendHeader = true := by
  intro events
  induction events with
  | nil => rintro s _ ⟨e, he, _⟩; cases he
  | cons e rest ih =>
    rintro s herr ⟨f, hf, hfd⟩
    rw [List.foldl_cons]
    rcases List.mem_cons.mp hf with heq | hmem
    · subst heq
      exact foldl_dsh_mono refs sep rest _ (onParse_dsh_set refs sep s f herr hfd)
    · by_cases hed : e.isDone = true
      · have heq : e = EventData.done := by cases e <;> simp [EventData.isDone] at hed ⊢
        rw [heq, onParse_done]
        exact ih s herr ⟨f, hmem, hfd⟩
      · exact foldl_dsh_mono refs sep rest _
          (onParse_dsh_set refs sep s e herr (by simpa using hed))

/-- C1, counterexample: when the upstream emits zero content events before the
termination sentinel, the references frame is never emitted — the `[DONE]`
check at line 273 returns before the header-sending block at line 278, so the
stream closes with no output at all, contradicting the claim that the frame is
still emitted before the stream closes. -/
theorem c1_counterexample :
    (runTransformer ["docs/a.md"] "___STREAM___" [EventData.done]).out = [] := by decide

/-- C1 (corrected): the references frame (the JSON-encoded reference list
followed by the fixed separator) is emitted exactly once and as the first
frame, before any content bytes, whenever the upstream emits at least one
non-sentinel event; when every upstream event is the sentinel (in particular
zero content events), no references frame is emitted and the stream closes
with empty output. -/
theorem c1_references_frame_amended (refs : List String) (sep : String)
    (events : List EventData) :
    ((∃ e ∈ events, e.isDone = false) →
      ∃ rest, (runTransformer refs sep events).out
          = OutFrame.header (headerPayload refs sep) :: rest
        ∧ rest.countP isHeaderFrame = 0)
    ∧ ((∀ e ∈ events, e = EventData.done) → (runTransformer refs sep events).out = []) := by
  constructor
  · intro hex
    have hinv := foldl_inv refs sep events initTState (Or.inl ⟨rfl, rfl⟩)
    have hdsh := foldl_dsh_any refs sep events initTState rfl hex
    rcases hinv with ⟨hd, _⟩ | ⟨_, rest, ho, hc⟩
    · rw [hdsh] at hd
      cases hd
    · exact ⟨rest, ho, hc⟩
  · intro hall
    rw [runTransformer, foldl_allDone refs sep events initTState hall]
    rfl

/-- C1, witness: on a one-chunk upstream stream the references frame is the
first frame and occurs exactly once. -/
theorem c1_witness :
    ∃ rest, (runTransformer ["docs/a.md"] "___STREAM___" [EventData.chunk "Hi"]).out
        = OutFrame.header (headerPayload ["docs/a.md"] "___STREAM___") :: rest
      ∧ rest.countP isHeaderFrame = 0 :=
  (c1_references_frame_amended ["docs/a.md"] "___STREAM___" [EventData.chunk "Hi"]).1
    ⟨EventData.chunk "Hi", by decide, by decide⟩

/-- C8, counterexample: an event arriving after the `[DONE]` sentinel still
contributes output — the sentinel merely returns from its own callback
invocation, it does not stop the parser — contradicting the claim that no
event after the sentinel contributes any output. -/
theorem c8_counterexample :
    (runTransformer ["r.md"] "|" [EventData.done, EventData.chunk "x"]).out
      = [OutFrame.header (headerPayload ["r.md"] "|"), OutFrame.content "x"] := by decide

/-- C8 (corrected): the `[DONE]` sentinel event itself emits no frame and
leaves the transformer state untouched, so sentinel events can be deleted from
the event sequence without changing the result; parsing is not stopped by the
sentinel — events after it are processed exactly as if the sentinel had not
occurred — and the output stream is closed only when the upstream body ends,
whatever the final state. -/
theorem c8_sentinel_amended (refs : List String) (sep : String) (s : TState)
    (evs1 evs2 : List EventData) :
    onParse refs sep s EventData.done = s ∧
    runTransformer refs sep (evs1 ++ EventData.done :: evs2)
      = runTransformer refs sep (evs1 ++ evs2) := by
  refine ⟨onParse_done refs sep s, ?_⟩
  unfold runTransformer
  rw [List.foldl_append, List.foldl_append, List.foldl_cons, onParse_done]

/-- One chunk event from a live state: the chunk is suppressed (counter and
contents unchanged) exactly when fewer than two chunks are counted and the
text contains a newline; otherwise it is forwarded and counted. -/
theorem onParse_chunk_spec (refs : List String) (sep : String) (s : TState) (text : String)
    (herr : s.errored = false) :
    (onParse refs sep s (EventData.chunk text)).errored = false ∧
    (if s.counter < 2 && hasNewline text
     then (onParse refs sep s (EventData.chunk text)).counter = s.counter ∧
          contentsOf (onParse refs sep s (EventData.chunk text)).out = contentsOf s.out
     else (onParse refs sep s (EventData.chunk text)).counter = s.counter + 1 ∧
          contentsOf (onParse refs sep s (EventData.chunk text)).out
            = contentsOf s.out ++ [text]) := by
  by_cases hdsh : s.didSendHeader = true
  · have hs1 : sendHeaderIfNeeded refs sep s = s := by simp [sendHeaderIfNeeded, hdsh]
    simp only [onParse, herr, Bool.false_eq_true, if_false, hs1]
    by_cases hc : (s.counter < 2 && hasNewline text) = true
    · simp [hc]
    · simp [hc, contentsOf_append, contentsOf]
  · have hs1 : sendHeaderIfNeeded refs sep s
        = { s with out := s.out ++ [OutFrame.header (headerPayload refs sep)],
                   didSendHeader := true } := by
      simp [sendHeaderIfNeeded, hdsh]
    simp only [onParse, herr, Bool.false_eq_true, if_false, hs1]
    by_cases hc : (s.counter < 2 && hasNewline text) = true
    · simp [hc, contentsOf_append, contentsOf]
    · simp [hc, contentsOf_append, contentsOf, List.append_assoc]

/-- The content frames produced by a chunk-only event sequence are exactly the
artifact filter of the chunk texts, relative to the chunk counter. -/
theorem foldl_chunks_contents (refs : List String) (sep : String) :
    ∀ (texts : List String) (s : TState), s.errored = false →
      contentsOf (((texts.map EventData.chunk).foldl (onParse refs sep) s).out)
        = contentsOf s.out ++ artifactFilter s.counter texts := by
  intro texts
  induction texts with
  | nil => intro s _; simp [artifactFilter]
  | cons t rest ih =>
    intro s herr
    rw [List.map_cons, List.foldl_cons]
    have hspec := onParse_chunk_spec refs sep s t herr
    obtain ⟨herr3, hcond⟩ := hspec
    by_cases hc : (s.counter < 2 && hasNewline t) = true
    · rw [if_pos hc] at hcond
      obtain ⟨hcnt, hout⟩ := hcond
      rw [ih _ herr3, hout, hcnt]
      have hfil : artifactFilter s.counter (t :: rest) = artifactFilter s.counter rest := by
        rw [artifactFilter, if_pos hc]
      rw [hfil]
    · rw [if_neg hc] at hcond
      obtain ⟨hcnt, hout⟩ := hcond
      rw [ih _ herr3, hout, hcnt]
      have hfil : artifactFilter s.counter (t :: rest)
          = t :: artifactFilter (s.counter + 1) rest := by
        rw [artifactFilter, if_neg hc]
      rw [hfil, List.append_assoc]
      rfl

/-- Once two chunks have been counted the artifact filter passes everything
through unchanged. -/
theorem artifactFilter_saturated :
    ∀ (texts : List String) (c : Nat), 2 ≤ c → artifactFilter c texts = texts := by
  intro texts
  induction texts with
  | nil => intro c _; rfl
  | cons t rest ih =>
    intro c hc
    rw [artifactFilter, if_neg ?_, ih (c + 1) (by omega)]
    simp only [Bool.and_eq_true, decide_eq_true_eq, not_and]
    intro h1
    omega

/-- C2, counterexample: a first chunk that contains a newline together with
other text (here the single chunk is the text a-newline-b) is suppressed by
the code, because the filter tests for the presence of a newline anywhere in
the chunk, not for a chunk consisting solely of newlines; the claim says such
a chunk is forwarded, but only the references header is emitted. -/
theorem c2_counterexample :
    (runTransformer [] "|" [EventData.chunk "a\nb"]).out
      = [OutFrame.header (headerPayload [] "|")] := by decide

/-- C2 (corrected): for the first two counted content chunks, a chunk is
suppressed (not forwarded and not counted) if and only if it contains at least
one newline character — not only when it consists solely of newlines; after
two chunks have been counted, every chunk is forwarded unfiltered.  The
forwarded sequence is exactly `artifactFilter` of the chunk texts, and on the
sequence of the claim's example the forwarded chunks are Hello and world as
claimed. -/
theorem c2_artifact_filter_amended (refs : List String) (sep : String)
    (texts : List String) :
    contentsOf (runTransformer refs sep (texts.map EventData.chunk)).out
        = artifactFilter 0 texts
    ∧ artifactFilter 0 ["\n", "\n\n", "Hello", " world"] = ["Hello", " world"]
    ∧ artifactFilter 2 texts = texts := by
  refine ⟨?_, by decide, artifactFilter_saturated texts 2 (by omega)⟩
  have h := foldl_chunks_contents refs sep texts initTState rfl
  simpa [runTransformer, initTState, contentsOf] using h

/-- The context text accumulated by the budgeting loop is the starting text
followed by the rendered texts of exactly the spec-side maximal prefix. -/
theorem budgetLoop_context :
    ∀ (secs : List FileSection) (n : Nat) (ctx : String) (refs : List String),
      (budgetLoop n ctx refs secs).1
        = ctx ++ concatAll ((includedSections n secs).map sectionText) := by
  intro secs
  induction secs with
  | nil =>
    intro n ctx refs
    simp [budgetLoop, includedSections, concatAll, String.append_empty]
  | cons sec rest ih =>
    intro n ctx refs
    by_cases h : n + sec.token_count < CONTEXT_TOKENS_CUTOFF
    · rw [budgetLoop]
      dsimp only
      rw [if_neg (by omega), includedSections, if_pos h, List.map_cons]
      show (budgetLoop (n + sec.token_count) (ctx ++ sectionText sec) _ rest).1 = _
      rw [ih, concatAll, String.append_assoc]
    · rw [budgetLoop]
      dsimp only
      rw [if_pos (by omega), includedSections, if_neg h]
      simp [concatAll, String.append_empty]

/-- C3 (confirmed): the assembled context text is exactly the concatenation,
in list order, of trimmed-content-plus-separator over the maximal prefix of
sections whose running token total stays strictly below the 800-token cutoff
after each addition; a first section whose token count reaches the cutoff
yields an empty context and an empty reference list, because the cutoff check
runs before the text is appended; and on token counts 500, 400, 100 the
context holds only the first section's text with reference list path0. -/
theorem c3_context_budget :
    (∀ secs : List FileSection,
        (budget secs).1 = concatAll ((includedSections 0 secs).map sectionText))
    ∧ (∀ (sec : FileSection) (rest : List FileSection),
        CONTEXT_TOKENS_CUTOFF ≤ sec.token_count → budget (sec :: rest) = ("", []))
    ∧ budget [⟨"path0", "Section zero content.", 500, 0⟩,
              ⟨"path1", "Section one content.", 400, 0⟩,
              ⟨"path2", "Section two content.", 100, 0⟩]
        = ("Section zero content.\n---\n", ["path0"]) := by
  refine ⟨?_, ?_, by decide⟩
  · intro secs
    have h := budgetLoop_context secs 0 "" []
    rwa [String.empty_append] at h
  · intro sec rest h
    rw [budget, budgetLoop]
    dsimp only
    rw [if_pos (by omega)]

/-- C3, witness: a single first section of exactly 800 tokens is excluded
entirely, leaving empty context and references. -/
theorem c3_witness :
    CONTEXT_TOKENS_CUTOFF ≤ 800
    ∧ budget [⟨"pbig", "Oversized section.", 800, 0⟩] = ("", []) :=
  ⟨by decide, c3_context_budget.2.1 ⟨"pbig", "Oversized section.", 800, 0⟩ [] (by decide)⟩

/-- The attempt count of the retry loop is bounded by the remaining fuel. -/
theorem backOffGo_count_le {α : Type} (op : Nat → Except String α) :
    ∀ (fuel i : Nat), (backOffGo op fuel i).2 ≤ i + fuel + 1 := by
  intro fuel
  induction fuel with
  | zero => intro i; simp [backOffGo]
  | succ f ih =>
    intro i
    rw [backOffGo]
    cases hop : op i with
    | ok a => simp
    | error e =>
      have h1 := ih (i + 1)
      have h2 : i + 1 + f + 1 = i + (f + 1) + 1 := by omega
      rw [h2] at h1
      simpa using h1

/-- If every attempt fails, the retry loop uses all its attempts and ends in
failure. -/
theorem backOffGo_allError {α : Type} (op : Nat → Except String α)
    (h : ∀ i, exceptIsOk (op i) = false) :
    ∀ (fuel i : Nat), (backOffGo op fuel i).2 = i + fuel + 1
      ∧ exceptIsOk (backOffGo op fuel i).1 = false := by
  intro fuel
  induction fuel with
  | zero => intro i; exact ⟨rfl, h i⟩
  | succ f ih =>
    intro i
    obtain ⟨e, he⟩ : ∃ e, op i = Except.error e := by
      cases hop : op i with
      | error e => exact ⟨e, rfl⟩
      | ok a =>
        have hi := h i
        rw [hop] at hi
        simp [exceptIsOk] at hi
    rw [backOffGo, he]
    have h1 := ih (i + 1)
    exact ⟨by rw [h1.1]; omega, h1.2⟩

/-- Under the handler's options, at most ten attempts are ever made. -/
theorem backOffRun_count_le {α : Type} (op : Nat → Except String α) :
    (backOffRun completionsBackoffOptions op).2 ≤ 10 := by
  have h := backOffGo_count_le op 9 0
  simpa [backOffRun, completionsBackoffOptions] using h

/-- Under the handler's options, if every attempt fails then exactly ten
attempts are made and the last error is rethrown. -/
theorem backOffRun_allError {α : Type} (op : Nat → Except String α)
    (h : ∀ i, exceptIsOk (op i) = false) :
    ∃ e, backOffRun completionsBackoffOptions op = (Except.error e, 10) := by
  have hh := backOffGo_allError op h 9 0
  cases hres : (backOffGo op 9 0).1 with
  | error e =>
    refine ⟨e, ?_⟩
    show backOffGo op 9 0 = (Except.error e, 10)
    have h1 := hh.1
    have hsplit : backOffGo op 9 0 = ((backOffGo op 9 0).1, (backOffGo op 9 0).2) := rfl
    rw [hsplit, hres, h1]
  | ok a =>
    have h2 := hh.2
    rw [hres] at h2
    simp [exceptIsOk] at h2

/-- C4, counterexample: the 429 rejection carries the fixed plain-text body
Too many requests, which contains no retry window at all (not even a digit),
contradicting the claim that the handler responds with a human-readable retry
window. -/
theorem c4_counterexample :
    (handler envRL reqStd).outcome = HandlerOutcome.rateLimited
    ∧ statusOf (handler envRL reqStd).outcome = some 429
    ∧ bodyOf (handler envRL reqStd).outcome = some "Too many requests"
    ∧ ("Too many requests".toList.all (fun c => !c.isDigit)) = true
    ∧ (handler envRL reqStd).moderationCalls = 0 := by decide

/-- C4 (corrected): for every request that reaches the rate-limit check, if
the limiter returns success = false the handler responds 429 with the fixed
plain-text body Too many requests — with no retry window — and performs no
moderation, embedding, retrieval or completion call. -/
theorem c4_rate_limit_amended (env : Env) (req : Req)
    (hm : req.method = "POST")
    (hp : isFalsyStr (resolvedProject req) = false)
    (hpr : truncateTo env.maxPromptLength req.promptParam ≠ "")
    (hrl : env.rateLimit.success = false) :
    (handler env req).outcome = HandlerOutcome.rateLimited
    ∧ statusOf (handler env req).outcome = some 429
    ∧ bodyOf (handler env req).outcome = some "Too many requests"
    ∧ (handler env req).moderationCalls = 0
    ∧ (handler env req).embeddingCalls = 0
    ∧ (handler env req).retrievalCalls = 0
    ∧ (handler env req).completionCalls = 0 := by
  have hh : handler env req = { outcome := HandlerOutcome.rateLimited } := by
    simp [handler, hm, hp, hpr, hrl]
  rw [hh]
  exact ⟨rfl, rfl, rfl, rfl, rfl, rfl, rfl⟩

/-- C4, witness: a concrete rejected request yields the 429 trace with no
downstream calls. -/
theorem c4_witness :
    envRL.rateLimit.success = false
    ∧ (handler envRL reqStd).outcome = HandlerOutcome.rateLimited
    ∧ (handler envRL reqStd).completionCalls = 0 :=
  ⟨rfl, (c4_rate_limit_amended envRL reqStd rfl (by decide) (by decide) rfl).1,
    (c4_rate_limit_amended envRL reqStd rfl (by decide) (by decide) rfl).2.2.2.2.2.2⟩

/-- C5, counterexample: a flagged query makes the handler throw the uncaught
Flagged content error — there is no Response object at all, hence no
plain-text 400 — contradicting the claim that the failure is reported as a
plain-text 400 response; no embedding call and no stream occur. -/
theorem c5_counterexample :
    (handler envFlag reqStd).outcome = HandlerOutcome.thrownFlagged
    ∧ statusOf (handler envFlag reqStd).outcome = none
    ∧ bodyOf (handler envFlag reqStd).outcome = none
    ∧ (handler envFlag reqStd).embeddingCalls = 0
    ∧ (handler envFlag reqStd).completionCalls = 0 := by decide

/-- C5 (corrected): for every sanitized query that moderation flags, the
pipeline terminates by throwing an uncaught Flagged content error — not by
returning a plain-text 400 response — no stream is opened, and no embedding
or retrieval call occurs. -/
theorem c5_moderation_amended (env : Env) (req : Req)
    (hm : req.method = "POST")
    (hp : isFalsyStr (resolvedProject req) = false)
    (hpr : truncateTo env.maxPromptLength req.promptParam ≠ "")
    (hrl : env.rateLimit.success = true)
    (hmod : env.moderationFlagged
        (sanitize (truncateTo env.maxPromptLength req.promptParam)) = true) :
    (handler env req).outcome = HandlerOutcome.thrownFlagged
    ∧ statusOf (handler env req).outcome = none
    ∧ bodyOf (handler env req).outcome = none
    ∧ (handler env req).embeddingCalls = 0
    ∧ (handler env req).retrievalCalls = 0
    ∧ (handler env req).completionCalls = 0 := by
  have hh : handler env req
      = { outcome := HandlerOutcome.thrownFlagged, moderationCalls := 1,
          moderationInput :=
            some (sanitize (truncateTo env.maxPromptLength req.promptParam)) } := by
    simp [handler, hm, hp, hpr, hrl, hmod]
  rw [hh]
  exact ⟨rfl, rfl, rfl, rfl, rfl, rfl⟩

/-- C5, witness: a concrete flagged request throws and spends nothing on
embeddings. -/
theorem c5_witness :
    envFlag.moderationFlagged
        (sanitize (truncateTo envFlag.maxPromptLength reqStd.promptParam)) = true
    ∧ (handler envFlag reqStd).outcome = HandlerOutcome.thrownFlagged
    ∧ (handler envFlag reqStd).embeddingCalls = 0 :=
  ⟨rfl, (c5_moderation_amended envFlag reqStd rfl (by decide) (by decide) rfl rfl).1,
    (c5_moderation_amended envFlag reqStd rfl (by decide) (by decide) rfl rfl).2.2.2.1⟩

/-- C6 (confirmed): the embedding call is wrapped in backoff configured with
a 10000 millisecond (10 second) initial delay and at most 10 attempts total,
so the first inter-attempt delay is 10000 ms and no run of the handler makes
more than ten embedding attempts; no other stage is ever invoked more than
once; and when every attempt fails the request terminates with the 400
embedding-error response, the full ten attempts having been spent, with no
retrieval call and no stream opened. -/
theorem c6_embedding_backoff :
    (completionsBackoffOptions.startingDelay = 10000
      ∧ completionsBackoffOptions.numOfAttempts = 10
      ∧ (backOffDelays completionsBackoffOptions).head? = some 10000)
    ∧ (∀ (env : Env) (req : Req),
        (handler env req).embeddingCalls ≤ 10
        ∧ (handler env req).moderationCalls ≤ 1
        ∧ (handler env req).retrievalCalls ≤ 1
        ∧ (handler env req).completionCalls ≤ 1)
    ∧ (∀ (env : Env) (req : Req),
        req.method = "POST" →
        isFalsyStr (resolvedProject req) = false →
        truncateTo env.maxPromptLength req.promptParam ≠ "" →
        env.rateLimit.success = true →
        env.moderationFlagged
          (sanitize (truncateTo env.maxPromptLength req.promptParam)) = false →
        (∀ i, exceptIsOk (env.embeddingAttempt i) = false) →
        (∃ e, (handler env req).outcome
            = HandlerOutcome.embeddingError
                (truncateTo env.maxPromptLength req.promptParam) e)
        ∧ statusOf (handler env req).outcome = some 400
        ∧ (handler env req).embeddingCalls = 10
        ∧ (handler env req).retrievalCalls = 0
        ∧ (handler env req).completionCalls = 0) := by
  refine ⟨⟨rfl, rfl, by decide⟩, ?_, ?_⟩
  · intro env req
    have hle := backOffRun_count_le (α := CreateEmbeddingResponse) env.embeddingAttempt
    rcases hres : backOffRun completionsBackoffOptions env.embeddingAttempt with ⟨res, attempts⟩
    rw [hres] at hle
    dsimp only at hle
    unfold handler
    rw [hres]
    cases res with
    | error e =>
      repeat' (first | dsimp only | split)
      all_goals refine ⟨?_, ?_, ?_, ?_⟩ <;> (dsimp only; omega)
    | ok resp =>
      repeat' (first | dsimp only | split)
      all_goals refine ⟨?_, ?_, ?_, ?_⟩ <;> (dsimp only; omega)
  · intro env req hm hp hpr hrl hmod hfail
    obtain ⟨e, he⟩ := backOffRun_allError env.embeddingAttempt hfail
    have hh : handler env req
        = { outcome := HandlerOutcome.embeddingError
              (truncateTo env.maxPromptLength req.promptParam) e,
            moderationCalls := 1,
            moderationInput :=
              some (sanitize (truncateTo env.maxPromptLength req.promptParam)),
            embeddingCalls := 10 } := by
      simp [handler, hm, hp, hpr, hrl, hmod, he]
    rw [hh]
    exact ⟨⟨e, rfl⟩, rfl, rfl, rfl, rfl⟩

/-- C6, witness: with every embedding attempt failing, exactly ten attempts
are spent and no stream is opened. -/
theorem c6_witness :
    (∀ i, exceptIsOk (envFail.embeddingAttempt i) = false)
    ∧ (handler envFail reqStd).embeddingCalls = 10
    ∧ (handler envFail reqStd).completionCalls = 0 :=
  ⟨fun _ => rfl,
    (c6_embedding_backoff.2.2 envFail reqStd rfl (by decide) (by decide) rfl rfl
      (fun _ => rfl)).2.2.1,
    (c6_embedding_backoff.2.2 envFail reqStd rfl (by decide) (by decide) rfl rfl
      (fun _ => rfl)).2.2.2.2⟩

/-- C7, counterexample: a fully successful run — limiter admitting with
limit 10 and remaining 9, one retrieved section, a streamed answer — returns
the streaming response with an empty header list: the rate-limit values are
not surfaced anywhere, contradicting the claim that every successful response
carries them. -/
theorem c7_counterexample :
    statusOf (handler envBase reqStd).outcome = some 200
    ∧ (handler envBase reqStd).responseHeaders = []
    ∧ envBase.rateLimit.limit = 10
    ∧ envBase.rateLimit.remaining = 9
    ∧ (handler envBase reqStd).outcome
        = HandlerOutcome.stream
            [OutFrame.header (headerPayload ["docs/refund.md"] "___START_RESPONSE_STREAM___"),
             OutFrame.content "Ref", OutFrame.content "unds",
             OutFrame.content " apply."] := by decide

/-- C7 (corrected): the completions handler sets no response headers on any
response, successful or not, so the limiter's limit and remaining values are
never surfaced; indeed the handler's entire behavior is independent of those
two fields — it reads only the success flag. -/
theorem c7_headers_amended (env : Env) (req : Req) (l r : Int) :
    (handler env req).responseHeaders = []
    ∧ handler { env with rateLimit := { env.rateLimit with limit := l, remaining := r } } req
        = handler env req := by
  constructor
  · unfold handler
    rcases hres : backOffRun completionsBackoffOptions env.embeddingAttempt with ⟨res, attempts⟩
    cases res with
    | error e =>
      repeat' (first | dsimp only | split)
    | ok resp =>
      repeat' (first | dsimp only | split)
  · rfl

/-- The retrieval RPC argument object, when issued at all, always carries the
fixed policy constants 0.78, 10 and 50, whatever the request. -/
theorem handler_rpcArgs_shape (env : Env) (req : Req) :
    (handler env req).rpcArgs = none
    ∨ ∃ pid emb, (handler env req).rpcArgs
        = some { project_id := pid, embedding := emb, match_threshold := 78 / 100,
                 match_count := 10, min_content_length := 50 } := by
  unfold handler
  rcases hres : backOffRun completionsBackoffOptions env.embeddingAttempt with ⟨res, attempts⟩
  cases res with
  | error e =>
    repeat' (first | dsimp only | split)
    all_goals exact Or.inl rfl
  | ok resp =>
    repeat' (first | dsimp only | split)
    all_goals first
      | exact Or.inl rfl
      | exact Or.inr ⟨_, _, rfl⟩

/-- C9 (confirmed): every retrieval RPC the handler issues carries the fixed
policy constants match_threshold 0.78, match_count 10 and
min_content_length 50 — none request-configurable, for all environments and
requests — and when retrieval yields a null or empty section list the
pipeline performs no completion call and, whenever the retrieval stage was
reached, ends with the 400 No relevant sections found response. -/
theorem c9_retrieval_policy :
    (∀ (env : Env) (req : Req) (args : RpcArgs),
        (handler env req).rpcArgs = some args →
          args.match_threshold = 78 / 100 ∧ args.match_count = 10
            ∧ args.min_content_length = 50)
    ∧ (∀ (env : Env) (req : Req),
        (env.matchFileSections = Except.ok none
          ∨ env.matchFileSections = Except.ok (some [])) →
          (handler env req).completionCalls = 0
          ∧ ((handler env req).retrievalCalls = 1 →
              (handler env req).outcome = HandlerOutcome.noSections
              ∧ statusOf (handler env req).outcome = some 400
              ∧ bodyOf (handler env req).outcome = some "No relevant sections found")) := by
  constructor
  · intro env req args h
    rcases handler_rpcArgs_shape env req with hn | ⟨pid, emb, hs⟩
    · rw [h] at hn
      cases hn
    · rw [h] at hs
      injection hs with hs
      subst hs
      exact ⟨rfl, rfl, rfl⟩
  · intro env req hemp
    unfold handler
    rcases hres : backOffRun completionsBackoffOptions env.embeddingAttempt with ⟨res, attempts⟩
    cases res with
    | error e =>
      repeat' (first | dsimp only | split)
      all_goals exact ⟨rfl, fun hc => absurd hc (by decide)⟩
    | ok resp =>
      repeat' (first | dsimp only | split)
      all_goals first
        | exact ⟨rfl, fun _ => ⟨rfl, rfl, rfl⟩⟩
        | exact ⟨rfl, fun hc => absurd hc (by decide)⟩
        | (exfalso
           rcases hemp with hemp | hemp <;> simp_all)

/-- C9, witness: with retrieval returning the empty list, the concrete run
ends in No relevant sections found with no completion call. -/
theorem c9_witness :
    envEmpty.matchFileSections = Except.ok (some [])
    ∧ (handler envEmpty reqStd).outcome = HandlerOutcome.noSections
    ∧ (handler envEmpty reqStd).completionCalls = 0 :=
  ⟨rfl,
    (((c9_retrieval_policy.2 envEmpty reqStd) (Or.inr rfl)).2 (by decide)).1,
    ((c9_retrieval_policy.2 envEmpty reqStd) (Or.inr rfl)).1⟩

/-- C10 (confirmed): among POST requests with a resolvable project, the 400
No prompt provided failure occurs exactly when the truncated prompt is the
empty string; a non-empty (for instance whitespace-only) truncated prompt
passes the check and the pipeline proceeds, handing moderation the sanitized
query — which for a whitespace-only prompt is the empty string, since
trimming and newline-collapsing happen only after the check. -/
theorem c10_missing_prompt (env : Env) (req : Req)
    (hm : req.method = "POST")
    (hp : isFalsyStr (resolvedProject req) = false) :
    ((handler env req).outcome = HandlerOutcome.noPrompt
        ↔ truncateTo env.maxPromptLength req.promptParam = "")
    ∧ (truncateTo env.maxPromptLength req.promptParam ≠ "" →
        env.rateLimit.success = true →
        (handler env req).moderationInput
          = some (sanitize (truncateTo env.maxPromptLength req.promptParam)))
    ∧ sanitize " \n\t " = ""
    ∧ bodyOf HandlerOutcome.noPrompt = some "No prompt provided"
    ∧ statusOf HandlerOutcome.noPrompt = some 400 := by
  refine ⟨⟨?_, ?_⟩, ?_, by decide, rfl, rfl⟩
  · intro hout
    by_contra hne
    unfold handler at hout
    rcases hres : backOffRun completionsBackoffOptions env.embeddingAttempt with ⟨res, attempts⟩
    cases res with
    | error e =>
      repeat' (first | dsimp only at hout | split at hout)
      all_goals simp_all
    | ok resp =>
      repeat' (first | dsimp only at hout | split at hout)
      all_goals simp_all
  · intro hempty
    simp [handler, hm, hp, hempty]
  · intro hne hrl
    unfold handler
    rcases hres : backOffRun completionsBackoffOptions env.embeddingAttempt with ⟨res, attempts⟩
    cases res with
    | error e =>
      repeat' (first | dsimp only | split)
      all_goals simp_all
    | ok resp =>
      repeat' (first | dsimp only | split)
      all_goals simp_all

/-- C10, witness: the empty prompt yields No prompt provided, while a
whitespace-only prompt passes the check and moderation receives the empty
sanitized query. -/
theorem c10_witness :
    truncateTo envBase.maxPromptLength reqEmptyPrompt.promptParam = ""
    ∧ (handler envBase reqEmptyPrompt).outcome = HandlerOutcome.noPrompt
    ∧ truncateTo envBase.maxPromptLength reqWhitespacePrompt.promptParam ≠ ""
    ∧ (handler envBase reqWhitespacePrompt).moderationInput = some "" :=
  ⟨by decide,
    (c10_missing_prompt envBase reqEmptyPrompt rfl (by decide)).1.mpr (by decide),
    by decide,
    by
      have h := (c10_missing_prompt envBase reqWhitespacePrompt rfl (by decide)).2.1
        (by decide) rfl
      simpa using h⟩
